import Mathlib

/-!
Verification development for the `topology.js` canvas core
(`src/packages/core/src/canvas/canvas.ts`).

The interaction core is shallowly embedded over exact rational arithmetic.
Angles are represented by the pair of their cosine and sine (an `Angle`),
so that "rotate by θ degrees about a center" becomes an exact linear map;
the special angles the source uses literally (0° and 180°) are the pairs
`(1, 0)` and `(-1, 0)`.

Helper modules of the repository (`../point`, `../rect`, `../pen`,
`../common-diagram`) are not part of the sources at hand; every definition
taken from them is marked `Modelled from the spec:` in its doc comment and
follows the specification's description of that helper.  Definitions whose
doc comment cites `src` line numbers are translated from
`canvas.ts` itself.
-/

namespace Topology

/-- A 2-D point (`Point` of `../point`, the `x`/`y` part). -/
structure Point where
  x : ℚ
  y : ℚ
deriving DecidableEq, Repr

/-- A rotation angle, represented by its cosine and sine.  The source keeps
angles in degrees and converts through `Math.cos`/`Math.sin`; here the pair
`(c, s)` stands for the angle whose cosine is `c` and sine is `s`. -/
structure Angle where
  c : ℚ
  s : ℚ
deriving DecidableEq, Repr

/-- The zero rotation (0 degrees). -/
def Angle.zero : Angle := ⟨1, 0⟩

/-- The half-turn (180 degrees), used literally by the Mirror handle rule. -/
def Angle.half : Angle := ⟨-1, 0⟩

/-- Negation of an angle (used for `-this.activeRect.rotate`). -/
def Angle.neg (a : Angle) : Angle := ⟨a.c, -a.s⟩

/-- Sum of two angles, by the addition formulas. -/
def Angle.add (a b : Angle) : Angle :=
  ⟨a.c * b.c - a.s * b.s, a.s * b.c + a.c * b.s⟩

/-- Difference of two angles, by the subtraction formulas (used for
`rotate - nextRotate` in the Bilateral branch). -/
def Angle.sub (a b : Angle) : Angle :=
  ⟨a.c * b.c + a.s * b.s, a.s * b.c - a.c * b.s⟩

/-- An angle pair that lies on the unit circle, i.e. really is
`(cos θ, sin θ)` for some θ. -/
def Angle.unitV (a : Angle) : Prop := a.c ^ 2 + a.s ^ 2 = 1

/-- Modelled from the spec: §2 Geometry Primitives, "point
rotate-around-center" (`rotatePoint` of `../point`, missing from src).
Rotates `p` by the angle `a` about the center `ctr`. -/
def rotatePoint (p : Point) (a : Angle) (ctr : Point) : Point :=
  ⟨(p.x - ctr.x) * a.c - (p.y - ctr.y) * a.s + ctr.x,
   (p.x - ctr.x) * a.s + (p.y - ctr.y) * a.c + ctr.y⟩

/-- Squared distance between two points (used to state isometry facts
exactly over ℚ). -/
def sqDist (p q : Point) : ℚ := (p.x - q.x) ^ 2 + (p.y - q.y) ^ 2

/-- A rectangle as the source stores it: `x`/`y`/`ex`/`ey`/`width`/`height`
are separate mutable fields, plus a cached `center` and a rotation. -/
structure Rect where
  x : ℚ
  y : ℚ
  ex : ℚ
  ey : ℚ
  width : ℚ
  height : ℚ
  center : Point
  rotate : Angle
deriving DecidableEq, Repr

/-- Modelled from the spec: §4.4 Resize "recomputes ActiveRect center"
(`calcCenter` of `../rect`, missing from src): refreshes the cached center
from `x`, `y`, `width`, `height`. -/
def calcCenter (r : Rect) : Rect :=
  { r with center := ⟨r.x + r.width / 2, r.y + r.height / 2⟩ }

/-- Builds a coherent rect from a position and size, with its center cached
(used where the source rebuilds a rect from `x`/`y`/`width`/`height`). -/
def mkRect (x y w h : ℚ) (a : Angle) : Rect :=
  ⟨x, y, x + w, y + h, w, h, ⟨x + w / 2, y + h / 2⟩, a⟩

/-- Modelled from the spec: §2 Geometry Primitives "rect↔corner-point
conversion" and §4.2 "take the 4 rect corners (via rect→points)", corners in
the canonical winding top-left, top-right, bottom-right, bottom-left, each
rotated about the rect's center by its rotation (`rectToPoints` of
`../rect`, missing from src). -/
def rectToPoints (r : Rect) : List Point :=
  [(⟨r.x, r.y⟩ : Point), ⟨r.ex, r.y⟩, ⟨r.ex, r.ey⟩, ⟨r.x, r.ey⟩].map
    (fun p => rotatePoint p r.rotate r.center)

/-- `Canvas.getSizeCPs` (src/packages/core/src/canvas/canvas.ts 866–895):
the 4 corners of the active rect followed by the rotated top, right, bottom
and left edge midpoints. -/
def getSizeCPs (r : Rect) : List Point :=
  rectToPoints r ++
    [rotatePoint ⟨r.x + r.width * (1 / 2), r.y⟩ r.rotate r.center,
     rotatePoint ⟨r.ex, r.y + r.height * (1 / 2)⟩ r.rotate r.center,
     rotatePoint ⟨r.x + r.width * (1 / 2), r.ey⟩ r.rotate r.center,
     rotatePoint ⟨r.x, r.y + r.height * (1 / 2)⟩ r.rotate r.center]

theorem rotatePoint_zero (p ctr : Point) : rotatePoint p Angle.zero ctr = p := by
  simp [rotatePoint, Angle.zero]

/-- Claim C1 (corrected): for every ActiveRect with rotation θ, `getSizeCPs`
returns 8 points (not 9): each is exactly the θ = 0 position rotated by θ
about the rect's center, and in the θ = 0 case the order is the 4 corners
(top-left, top-right, bottom-right, bottom-left) followed by the top, right,
bottom and left edge midpoints. -/
theorem getSizeCPs_rotated_of_unrotated (r : Rect) :
    getSizeCPs r =
      (getSizeCPs { r with rotate := Angle.zero }).map
        (fun p => rotatePoint p r.rotate r.center) ∧
    (getSizeCPs r).length = 8 ∧
    getSizeCPs { r with rotate := Angle.zero } =
      [⟨r.x, r.y⟩, ⟨r.ex, r.y⟩, ⟨r.ex, r.ey⟩, ⟨r.x, r.ey⟩,
       ⟨r.x + r.width * (1 / 2), r.y⟩, ⟨r.ex, r.y + r.height * (1 / 2)⟩,
       ⟨r.x + r.width * (1 / 2), r.ey⟩, ⟨r.x, r.y + r.height * (1 / 2)⟩] := by
  refine ⟨?_, by simp [getSizeCPs, rectToPoints], ?_⟩ <;>
    simp [getSizeCPs, rectToPoints, rotatePoint_zero]

/-- Claim C1, counterexample to the claim as stated: the size-control-point
list of a concrete active rect has 8 entries, not 9. -/
theorem getSizeCPs_length_ne_nine :
    (getSizeCPs ⟨0, 0, 4, 3, 4, 3, ⟨2, 3 / 2⟩, Angle.zero⟩).length ≠ 9 := by
  decide

/-! ## Data model: lock levels, hotkey gates, hover classifications, pens -/

/-- Modelled from the spec: §7 "Lock levels form an ordered taxonomy
(`Disable` > `DisableMove` > normal)" (`LockState` of `../pen`, missing
from src).  `none_` is the unlocked/normal level (falsy in the source). -/
inductive LockState
  | none_
  | disableMove
  | disable
deriving DecidableEq, Repr

/-- Modelled from the spec: §3 "Exactly one HotkeyType gate
(`None, Translate, Select, Resize, AddAnchor`)" (`HotkeyType` of
`../data`, missing from src).  `none_` is falsy in the source. -/
inductive HotkeyType
  | none_
  | translate
  | select
  | resize
  | addAnchor
deriving DecidableEq, Repr

/-- Modelled from the spec: §3 Interaction Mode / §4.3 output classification
(`HoverType` of `../data`, missing from src). -/
inductive HoverType
  | none_
  | nodeAnchor
  | lineAnchor
  | lineAnchorPrev
  | lineAnchorNext
  | resize
  | rotate
  | line
  | node
deriving DecidableEq, Repr

/-- Modelled from the spec: §4.4 Bezier-control drag handle-pairing policy
(`PrevNextType` of `../point`, missing from src).  `mirror` is the numeric
value 0 in the source and hence falsy, like the unset field. -/
inductive PrevNextType
  | mirror
  | bilateral
  | free
deriving DecidableEq, Repr

/-- A world-space anchor point as carried on `calculative.worldFrom`,
`calculative.worldTo` and `calculative.worldAnchors`: position,
optional binding to another pen's anchor, optional bezier control
handles (`Point` of `../point`, the anchor-related part). -/
structure WPoint where
  x : ℚ
  y : ℚ
  connectTo : Option Nat := none
  anchorId : Option Nat := none
  prev : Option Point := none
  next : Option Point := none
deriving DecidableEq, Repr

/-- The position of a world anchor. -/
def WPoint.pt (a : WPoint) : Point := ⟨a.x, a.y⟩

/-- Translation of a world anchor by a delta. -/
def WPoint.translate (a : WPoint) (dx dy : ℚ) : WPoint :=
  { a with x := a.x + dx, y := a.y + dy }

/-- The facet of `TopologyPen` the canvas core reads and mutates.
`isLine` stands for both `pen.type === PenType.Line` and
`pen.name === 'line'` (they coincide for the pens this core creates);
`active` is `calculative.active`; `worldRect`, `worldFrom`, `worldTo`,
`worldAnchors` are the `calculative` world-space caches; `anchors`,
`fromP`, `toP` are the persisted rect-relative points.  Render-only data
(colors, images, paths) lives with external collaborators (§6) and is
omitted. -/
structure TopologyPen where
  id : Nat
  isLine : Bool
  visible : Bool := true
  locked : LockState := .none_
  parentId : Option Nat := none
  x : ℚ
  y : ℚ
  width : ℚ
  height : ℚ
  rotate : Angle := Angle.zero
  fromP : Option WPoint := none
  toP : Option WPoint := none
  anchors : List WPoint := []
  worldRect : Rect
  worldFrom : Option WPoint := none
  worldTo : Option WPoint := none
  worldAnchors : List WPoint := []
  active : Bool := false
deriving DecidableEq, Repr

/-! ## Render Scheduler (Claim C2) -/

/-- The argument of `Canvas.render`: the `Infinity` force sentinel, an
animation-frame timestamp, or no argument (`now == null`). -/
inductive RenderArg
  | forced
  | time (t : ℚ)
  | noArg
deriving DecidableEq, Repr

/-- The scheduler state `render` reads and writes: the dirty flag and the
time of the last performed redraw. -/
structure RenderState where
  dirty : Bool
  lastRender : ℚ
deriving DecidableEq, Repr

/-- What one call of `render` does: return with nothing to draw, defer to
the next animation frame (`requestAnimationFrame(this.render)`), or redraw
now (clearing the offscreen buffer, painting, blitting — all external
drawing effects; `animateFrame` records whether a further animation frame
was requested because `store.animate.size` is nonzero). -/
inductive RenderAct
  | skip
  | deferFrame
  | draw (animateFrame : Bool)
deriving DecidableEq, Repr

/-- The body of `Canvas.render` after the argument normalisation: the
dirty check, the interval throttle, and the redraw. -/
def renderCore (interval : ℚ) (animateSize : Bool) (dirty : Bool)
    (lastRender now : ℚ) : RenderState × RenderAct :=
  if dirty = false then (⟨dirty, lastRender⟩, .skip)
  else if now - lastRender < interval then (⟨dirty, lastRender⟩, .deferFrame)
  else (⟨false, now⟩, .draw animateSize)

/-- `Canvas.render` (src/packages/core/src/canvas/canvas.ts 1338–1373).
The `Infinity` sentinel forces the dirty flag and replaces `now` with
`performance.now()` (modelled by `clock`), as does a missing argument; the
canvas-context drawing calls are external effects summarised by the
returned `RenderAct`. -/
def render (interval : ℚ) (animateSize : Bool) (clock : ℚ)
    (st : RenderState) (arg : RenderArg) : RenderState × RenderAct :=
  match arg with
  | .forced => renderCore interval animateSize true st.lastRender clock
  | .time t => renderCore interval animateSize st.dirty st.lastRender t
  | .noArg => renderCore interval animateSize st.dirty st.lastRender clock

/-- Claim C2, counterexample to the claim as stated: a forced
(`Infinity`-sentinel) request arriving 5 ms after the previous render with
a 15 ms interval marks dirty but is deferred to the next animation frame —
it is not redrawn immediately, so the force sentinel does not bypass the
interval throttle. -/
theorem render_forced_deferred_cex :
    render 15 false 105 ⟨false, 100⟩ .forced = (⟨true, 100⟩, .deferFrame) := by
  norm_num [render, renderCore]

/-- Claim C2 (corrected): a forced (`Infinity`-sentinel) render request
sets the dirty flag unconditionally, but remains subject to the interval
throttle: if it arrives sooner than `interval` ms after the previous render
it is deferred to the next animation frame (with dirty left set, so it is
not dropped), and only otherwise is the redraw performed immediately.  A
non-forced request on a dirty canvas arriving sooner than `interval` ms
after the previous render is likewise deferred rather than dropped. -/
theorem render_throttle (interval clock t : ℚ) (anim : Bool) (st : RenderState) :
    (clock - st.lastRender < interval →
      render interval anim clock st .forced = ({ st with dirty := true }, .deferFrame)) ∧
    (interval ≤ clock - st.lastRender →
      render interval anim clock st .forced = (⟨false, clock⟩, .draw anim)) ∧
    (st.dirty = true → clock - st.lastRender < interval →
      render interval anim clock st .noArg = (st, .deferFrame)) ∧
    (st.dirty = true → t - st.lastRender < interval →
      render interval anim clock st (.time t) = (st, .deferFrame)) := by
  refine ⟨fun h => ?_, fun h => ?_, fun hd h => ?_, fun hd h => ?_⟩
  · simp [render, renderCore, h]
  · simp [render, renderCore, not_lt.mpr h]
  · obtain ⟨d, l⟩ := st
    simp only [RenderState.dirty] at hd
    subst hd
    simp [render, renderCore, h]
  · obtain ⟨d, l⟩ := st
    simp only [RenderState.dirty] at hd
    subst hd
    simp [render, renderCore, h]

/-- Claim C2, witness: the corrected throttling behavior evaluated on
concrete states — a forced request 5 ms after the last render (interval
15 ms) defers; a forced request 20 ms after draws; dirty non-forced
requests inside the interval defer. -/
theorem render_throttle_witness :
    render 15 false 105 ⟨true, 100⟩ .forced = (⟨true, 100⟩, .deferFrame) ∧
    render 15 false 120 ⟨true, 100⟩ .forced = (⟨false, 120⟩, .draw false) ∧
    render 15 false 105 ⟨true, 100⟩ .noArg = (⟨true, 100⟩, .deferFrame) ∧
    render 15 false 200 ⟨true, 100⟩ (.time 110) = (⟨true, 100⟩, .deferFrame) := by
  refine ⟨?_, ?_, ?_, ?_⟩
  · exact (render_throttle 15 105 0 false ⟨true, 100⟩).1 (by norm_num)
  · exact (render_throttle 15 120 0 false ⟨true, 100⟩).2.1 (by norm_num)
  · exact (render_throttle 15 105 0 false ⟨true, 100⟩).2.2.1 rfl (by norm_num)
  · exact (render_throttle 15 200 110 false ⟨true, 100⟩).2.2.2 rfl (by norm_num)

/-! ## Bezier-control drag (Claims C7 and C8) -/

/-- The anchor under edit during a bezier-control drag: `store.anchor`'s
position and its two control handles, which the drag handlers read and
write directly (so `prev`/`next` are present, as the source assumes). -/
structure EditAnchor where
  p : Point
  prev : Point
  next : Point
  prevNextType : Option PrevNextType
deriving DecidableEq, Repr

/-- Truthiness of `anchor.prevNextType` in the source: the field is falsy
when unset and also when set to `Mirror` (numeric value 0). -/
def pntFalsy : Option PrevNextType → Bool
  | none => true
  | some .mirror => true
  | some _ => false

/-- `Canvas.moveLineAnchorNext`
(src/packages/core/src/canvas/canvas.ts 1701–1722).  `prevAnchor` and
`nextAnchor` are the handle snapshots the canvas took at gesture-down
(`Canvas.onMouseDown`, src 628–633); `e` is the current pointer point.
`calcRotate` of `../point` is missing from src and is modelled from the
spec ("computes the pointer's angle relative to … center", §4.4): its two
results — the angle of `e` and of the `nextAnchor` snapshot about the
anchor — enter as the parameters `eAngle` and `nextSnapAngle`, since their
values are transcendental; the source's `rotate - nextRotate` becomes
`Angle.sub eAngle nextSnapAngle`.  The line-path-cache update and render
request are external effects and are omitted. -/
def moveLineAnchorNext (hasActiveRect : Bool) (dataLocked : LockState)
    (a : EditAnchor) (prevAnchor nextAnchor : Point) (e : Point)
    (eAngle nextSnapAngle : Angle) : EditAnchor :=
  if hasActiveRect = false ∨ dataLocked ≠ .none_ then a
  else
    let a1 := { a with next := e }
    if pntFalsy a1.prevNextType then
      { a1 with prev := rotatePoint e Angle.half a1.p }
    else if a1.prevNextType = some .bilateral then
      { a1 with prev := rotatePoint prevAnchor (Angle.sub eAngle nextSnapAngle) a1.p }
    else a1

/-- Claim C7: for an anchor whose `prevNextType` is unset (or the Mirror
default), dragging `anchor.next` to `P` places `anchor.prev` at exactly `P`
rotated 180 degrees about the anchor, i.e. at the point reflection
`2·anchor − P`. -/
theorem moveLineAnchorNext_mirror (a : EditAnchor) (pS nS e : Point)
    (ea na : Angle) (hm : pntFalsy a.prevNextType = true) :
    (moveLineAnchorNext true .none_ a pS nS e ea na).prev =
      ⟨2 * a.p.x - e.x, 2 * a.p.y - e.y⟩ ∧
    (moveLineAnchorNext true .none_ a pS nS e ea na).next = e := by
  have hmove : moveLineAnchorNext true .none_ a pS nS e ea na =
      { a with next := e, prev := rotatePoint e Angle.half a.p } := by
    simp [moveLineAnchorNext, hm]
  rw [hmove]
  refine ⟨?_, rfl⟩
  simp only [rotatePoint, Angle.half, Point.mk.injEq]
  constructor <;> ring

/-- Claim C7, witness: the claim's concrete instance — anchor at
`(100,100)`, `next` dragged to `P = (120,80)` with `prevNextType` unset
puts `prev` at `(80,120)`. -/
theorem moveLineAnchorNext_mirror_witness :
    (moveLineAnchorNext true .none_
        ⟨⟨100, 100⟩, ⟨0, 0⟩, ⟨0, 0⟩, none⟩ ⟨0, 0⟩ ⟨0, 0⟩ ⟨120, 80⟩
        Angle.zero Angle.zero).prev = ⟨80, 120⟩ := by
  have h := (moveLineAnchorNext_mirror ⟨⟨100, 100⟩, ⟨0, 0⟩, ⟨0, 0⟩, none⟩
      ⟨0, 0⟩ ⟨0, 0⟩ ⟨120, 80⟩ Angle.zero Angle.zero rfl).1
  rw [h]
  norm_num

/-- `a` is the direction angle of the vector from `ctr` to `p`: the vector
is a positive multiple of `(cos, sin)` of `a`. -/
def isDirOf (a : Angle) (ctr p : Point) : Prop :=
  ∃ r : ℚ, 0 < r ∧ p.x - ctr.x = r * a.c ∧ p.y - ctr.y = r * a.s

/-- Claim C8: with `prevNextType = Bilateral` and the `prevAnchor` /
`nextAnchor` snapshots taken at gesture-down, dragging `anchor.next` to a
pointer point whose angle about the anchor differs from the snapshot
`next` angle by δ places `anchor.prev` at the snapshot `prev` position
rotated by the same δ about the anchor: the new `prev` keeps the snapshot
`prev`'s squared distance from the anchor, and its direction angle about
the anchor is the snapshot direction advanced by exactly δ. -/
theorem moveLineAnchorNext_bilateral (a : EditAnchor)
    (prevSnap nextSnap e : Point) (ea na : Angle)
    (hb : a.prevNextType = some .bilateral)
    (hps : prevSnap = a.prev) (hns : nextSnap = a.next)
    (hu1 : Angle.unitV ea) (hu2 : Angle.unitV na)
    (hd1 : isDirOf ea a.p e) (hd2 : isDirOf na a.p nextSnap) :
    (moveLineAnchorNext true .none_ a prevSnap nextSnap e ea na).next = e ∧
    (moveLineAnchorNext true .none_ a prevSnap nextSnap e ea na).prev =
      rotatePoint prevSnap (Angle.sub ea na) a.p ∧
    Angle.unitV (Angle.sub ea na) ∧
    sqDist (moveLineAnchorNext true .none_ a prevSnap nextSnap e ea na).prev a.p =
      sqDist prevSnap a.p ∧
    (∀ b : Angle, isDirOf b a.p prevSnap →
      isDirOf (Angle.add (Angle.sub ea na) b) a.p
        (moveLineAnchorNext true .none_ a prevSnap nextSnap e ea na).prev) := by
  have hmove : moveLineAnchorNext true .none_ a prevSnap nextSnap e ea na =
      { a with next := e,
               prev := rotatePoint prevSnap (Angle.sub ea na) a.p } := by
    simp [moveLineAnchorNext, hb, pntFalsy]
  have hu1' : ea.c ^ 2 + ea.s ^ 2 = 1 := hu1
  have hu2' : na.c ^ 2 + na.s ^ 2 = 1 := hu2
  have hunit : Angle.unitV (Angle.sub ea na) := by
    simp only [Angle.unitV, Angle.sub]
    linear_combination (na.c ^ 2 + na.s ^ 2) * hu1' + hu2'
  refine ⟨by simp [hmove], by simp [hmove], hunit, ?_, ?_⟩
  · have hδ : (Angle.sub ea na).c ^ 2 + (Angle.sub ea na).s ^ 2 = 1 := hunit
    simp only [hmove, sqDist, rotatePoint]
    linear_combination
      ((prevSnap.x - a.p.x) ^ 2 + (prevSnap.y - a.p.y) ^ 2) * hδ
  · rintro b ⟨r, hr, hx, hy⟩
    refine ⟨r, hr, ?_, ?_⟩
    · simp only [hmove, rotatePoint, Angle.add, Angle.sub]
      linear_combination
        (ea.c * na.c + ea.s * na.s) * hx - (ea.s * na.c - ea.c * na.s) * hy
    · simp only [hmove, rotatePoint, Angle.add, Angle.sub]
      linear_combination
        (ea.s * na.c - ea.c * na.s) * hx + (ea.c * na.c + ea.s * na.s) * hy

/-- Claim C8, witness: anchor at the origin, snapshot `next` at `(1,0)`
(angle 0), pointer dragged to `(0,2)` (angle 90°, so δ = 90°), snapshot
`prev` at `(−3,0)`: the new `prev` is `(0,−3)` — the snapshot `prev`
rotated by 90° — with its squared distance 9 from the anchor preserved. -/
theorem moveLineAnchorNext_bilateral_witness :
    (moveLineAnchorNext true .none_
        ⟨⟨0, 0⟩, ⟨-3, 0⟩, ⟨1, 0⟩, some .bilateral⟩
        ⟨-3, 0⟩ ⟨1, 0⟩ ⟨0, 2⟩ ⟨0, 1⟩ ⟨1, 0⟩).prev =
      rotatePoint ⟨-3, 0⟩ (Angle.sub ⟨0, 1⟩ ⟨1, 0⟩) ⟨0, 0⟩ ∧
    sqDist (moveLineAnchorNext true .none_
        ⟨⟨0, 0⟩, ⟨-3, 0⟩, ⟨1, 0⟩, some .bilateral⟩
        ⟨-3, 0⟩ ⟨1, 0⟩ ⟨0, 2⟩ ⟨0, 1⟩ ⟨1, 0⟩).prev ⟨0, 0⟩ =
      sqDist (⟨-3, 0⟩ : Point) ⟨0, 0⟩ := by
  have h := moveLineAnchorNext_bilateral
    ⟨⟨0, 0⟩, ⟨-3, 0⟩, ⟨1, 0⟩, some .bilateral⟩
    ⟨-3, 0⟩ ⟨1, 0⟩ ⟨0, 2⟩ ⟨0, 1⟩ ⟨1, 0⟩
    rfl rfl rfl (by norm_num [Angle.unitV]) (by norm_num [Angle.unitV])
    ⟨2, by norm_num⟩ ⟨1, by norm_num⟩
  exact ⟨h.2.1, h.2.2.2.1⟩

/-! ## Rect helpers and pen-rect recomputation -/

/-- Modelled from the spec: §2 Geometry Primitives rect translation
(`translateRect` of `../rect`, missing from src): shifts `x`, `y`, `ex`,
`ey` and the cached center by the delta. -/
def translateRect (r : Rect) (dx dy : ℚ) : Rect :=
  { r with x := r.x + dx, y := r.y + dy, ex := r.ex + dx, ey := r.ey + dy,
           center := ⟨r.center.x + dx, r.center.y + dy⟩ }

/-- `Canvas.dirtyPenRect` (src/packages/core/src/canvas/canvas.ts
1329–1336).  Its workers `calcWorldRects` / `calcWorldAnchors` of `../pen`
are missing from src and are modelled from the spec: §3 Pen invariant —
`calculative.worldRect` is recomputed from the logical rect (the pens the
claims exercise are unparented, so world equals logical), and the world
anchors are the rect-relative `anchors` mapped into the world rect.
`calcIconRect`, `calcTextRect` and the path-cache update are render-only
effects of external collaborators (§6) and are omitted. -/
def dirtyPenRect (pen : TopologyPen) : TopologyPen :=
  let rect := mkRect pen.x pen.y pen.width pen.height pen.rotate
  { pen with
      worldRect := rect,
      worldAnchors := pen.anchors.map (fun a =>
        { a with x := rect.x + a.x * rect.width,
                 y := rect.y + a.y * rect.height }) }

/-! ## Resize gesture (Claim C5) -/

/-- The canvas state a resize gesture reads: the active rect, the
pointer-down point, the already-applied accumulated offset, the handle
index chosen by the Hit-Test Resolver, and the selection with its
normalized pre-resize positions recorded at pointer-down
(`Canvas.onMouseDown`, src 634–642). -/
structure ResizeGesture where
  activeRect : Rect
  mouseDown : Point
  lastOffsetX : ℚ
  lastOffsetY : ℚ
  resizeIndex : Nat
  activeInitPos : List Point
  active : List TopologyPen
deriving DecidableEq, Repr

/-- The state `resizePens` writes back. -/
structure ResizeOut where
  activeRect : Rect
  lastOffsetX : ℚ
  lastOffsetY : ℚ
  active : List TopologyPen
  sizeCPs : List Point
deriving DecidableEq, Repr

/-- The `switch (this.resizeIndex)` of `Canvas.resizePens` (src
1579–1620): one of 8 corner/edge deltas applied to the active rect's
stored fields (a JS switch falls through the default silently). -/
def resizeRectByIndex (r : Rect) (i : Nat) (offsetX offsetY : ℚ) : Rect :=
  match i with
  | 0 => { r with x := r.x + offsetX, y := r.y + offsetY,
                  width := r.width - offsetX, height := r.height - offsetY }
  | 1 => { r with ex := r.ex + offsetX, y := r.y + offsetY,
                  width := r.width + offsetX, height := r.height - offsetY }
  | 2 => { r with ex := r.ex + offsetX, ey := r.ey + offsetY,
                  width := r.width + offsetX, height := r.height + offsetY }
  | 3 => { r with x := r.x + offsetX, ey := r.ey + offsetY,
                  width := r.width - offsetX, height := r.height + offsetY }
  | 4 => { r with y := r.y + offsetY, height := r.height - offsetY }
  | 5 => { r with ex := r.ex + offsetX, width := r.width + offsetX }
  | 6 => { r with ey := r.ey + offsetY, height := r.height + offsetY }
  | 7 => { r with x := r.x + offsetX, width := r.width - offsetX }
  | _ => r

/-- `Canvas.resizePens` (src/packages/core/src/canvas/canvas.ts
1563–1637): rotates the down-point and the current pointer into the active
rect's unrotated frame, applies the incremental offset to the rect by the
resize index, refreshes the center, then rescales every unparented member
around its recorded normalized position.  `e` is the current pointer
point; the render request is an external effect. -/
def resizePens (g : ResizeGesture) (e : Point) : ResizeOut :=
  let p1 := rotatePoint g.mouseDown (Angle.neg g.activeRect.rotate) g.activeRect.center
  let p2 := rotatePoint e (Angle.neg g.activeRect.rotate) g.activeRect.center
  let x := p2.x - p1.x
  let y := p2.y - p1.y
  let offsetX := x - g.lastOffsetX
  let offsetY := y - g.lastOffsetY
  let w := g.activeRect.width
  let h := g.activeRect.height
  let rect := calcCenter (resizeRectByIndex g.activeRect g.resizeIndex offsetX offsetY)
  let scaleX := rect.width / w
  let scaleY := rect.height / h
  let active := (g.active.zip g.activeInitPos).map (fun pi =>
    if pi.1.parentId.isSome then pi.1
    else
      dirtyPenRect { pi.1 with
        x := pi.2.x * rect.width + rect.x,
        y := pi.2.y * rect.height + rect.y,
        width := pi.1.width * scaleX,
        height := pi.1.height * scaleY })
  ⟨rect, x, y, active, getSizeCPs rect⟩

theorem rotatePoint_neg_zero (p ctr : Point) :
    rotatePoint p (Angle.neg Angle.zero) ctr = p := by
  simp [rotatePoint, Angle.neg, Angle.zero]

/-- Claim C5: on an unrotated selection with no offset applied yet, a
resize by corner index 2 (bottom-right) under accumulated pointer delta
`(dx, dy)` grows the ActiveRect's width by exactly `dx` and height by
exactly `dy` with the top-left corner `(x, y)` unchanged, and a resize by
corner index 0 (top-left) leaves the bottom-right corner `(ex, ey)`
unchanged. -/
theorem resizePens_corner_spec (g : ResizeGesture) (dx dy : ℚ)
    (hrot : g.activeRect.rotate = Angle.zero)
    (hox : g.lastOffsetX = 0) (hoy : g.lastOffsetY = 0) :
    ((resizePens { g with resizeIndex := 2 }
        ⟨g.mouseDown.x + dx, g.mouseDown.y + dy⟩).activeRect.width =
        g.activeRect.width + dx ∧
      (resizePens { g with resizeIndex := 2 }
        ⟨g.mouseDown.x + dx, g.mouseDown.y + dy⟩).activeRect.height =
        g.activeRect.height + dy ∧
      (resizePens { g with resizeIndex := 2 }
        ⟨g.mouseDown.x + dx, g.mouseDown.y + dy⟩).activeRect.x =
        g.activeRect.x ∧
      (resizePens { g with resizeIndex := 2 }
        ⟨g.mouseDown.x + dx, g.mouseDown.y + dy⟩).activeRect.y =
        g.activeRect.y) ∧
    ((resizePens { g with resizeIndex := 0 }
        ⟨g.mouseDown.x + dx, g.mouseDown.y + dy⟩).activeRect.ex =
        g.activeRect.ex ∧
      (resizePens { g with resizeIndex := 0 }
        ⟨g.mouseDown.x + dx, g.mouseDown.y + dy⟩).activeRect.ey =
        g.activeRect.ey) := by
  refine ⟨⟨?_, ?_, ?_, ?_⟩, ?_, ?_⟩ <;>
    · simp only [resizePens, hrot, rotatePoint_neg_zero, hox, hoy,
        resizeRectByIndex, calcCenter]
      try ring

/-- Claim C5, witness: a 100×60 unrotated active rect at the origin,
pointer delta `(7, 5)`: corner 2 yields a 107×65 rect with the top-left
still at the origin; corner 0 keeps `(ex, ey) = (100, 60)`. -/
theorem resizePens_corner_spec_witness :
    (resizePens ⟨mkRect 0 0 100 60 Angle.zero, ⟨100, 60⟩, 0, 0, 2, [], []⟩
        ⟨107, 65⟩).activeRect.width = 107 ∧
    (resizePens ⟨mkRect 0 0 100 60 Angle.zero, ⟨100, 60⟩, 0, 0, 0, [], []⟩
        ⟨107, 65⟩).activeRect.ex = 100 := by
  have h := resizePens_corner_spec
    ⟨mkRect 0 0 100 60 Angle.zero, ⟨100, 60⟩, 0, 0, 2, [], []⟩ 7 5 rfl rfl rfl
  obtain ⟨⟨hw, -, -, -⟩, hex, -⟩ := h
  norm_num [mkRect] at hw hex
  norm_num [mkRect]
  exact ⟨hw, hex⟩

/-! ## Active-rect derivation (Claim C6) -/

/-- Bounds of a point list as a rect with its center cached and zero
rotation (degenerate rect at the origin for the empty list, which the
claims do not exercise). -/
def boundsRect : List Point → Rect
  | [] => mkRect 0 0 0 0 Angle.zero
  | p :: ps =>
    let minX := ps.foldl (fun m q => min m q.x) p.x
    let minY := ps.foldl (fun m q => min m q.y) p.y
    let maxX := ps.foldl (fun m q => max m q.x) p.x
    let maxY := ps.foldl (fun m q => max m q.y) p.y
    mkRect minX minY (maxX - minX) (maxY - minY) Angle.zero

/-- Modelled from the spec: §4.2 "multi-pen path returns the union rect of
all member world rects" and §3 "axis-aligned union" (`getRect` of
`../rect`, missing from src): bounds of every member's (rotated)
world-rect corner points. -/
def getRect (pens : List TopologyPen) : Rect :=
  boundsRect (pens.flatMap (fun p => rectToPoints p.worldRect))

/-- `Canvas.calcActiveRect` (src/packages/core/src/canvas/canvas.ts
1754–1765): a single-pen selection adopts that pen's world rect and own
rotation (with the center refreshed); any other selection takes the union
rect with rotation forced to 0.  The `lastRotate` reset and the
`getSizeCPs` refresh are separate canvas-state effects. -/
def calcActiveRect (active : List TopologyPen) : Rect :=
  match active with
  | [pen] => calcCenter { pen.worldRect with rotate := pen.rotate }
  | _ => { getRect active with rotate := Angle.zero }

/-- Claim C6: a single-pen selection's ActiveRect carries exactly that
pen's rotation and its world rect's position and size; a selection of more
than one pen always gets rotation 0, whatever the members' rotations. -/
theorem calcActiveRect_rotation (active : List TopologyPen) :
    (∀ pen, active = [pen] →
      (calcActiveRect active).rotate = pen.rotate ∧
      (calcActiveRect active).x = pen.worldRect.x ∧
      (calcActiveRect active).y = pen.worldRect.y ∧
      (calcActiveRect active).width = pen.worldRect.width ∧
      (calcActiveRect active).height = pen.worldRect.height) ∧
    (2 ≤ active.length → (calcActiveRect active).rotate = Angle.zero) := by
  constructor
  · rintro pen rfl
    simp [calcActiveRect, calcCenter]
  · intro h2
    rcases active with _ | ⟨a, _ | ⟨b, rest⟩⟩
    · simp at h2
    · simp at h2
    · simp [calcActiveRect]

/-- Demonstration pens for concrete selections. -/
def demoPenA : TopologyPen :=
  { id := 1, isLine := false, x := 0, y := 0, width := 10, height := 10,
    rotate := ⟨0, 1⟩, worldRect := mkRect 0 0 10 10 ⟨0, 1⟩ }

def demoPenB : TopologyPen :=
  { id := 2, isLine := false, x := 20, y := 20, width := 4, height := 6,
    rotate := ⟨0, -1⟩, worldRect := mkRect 20 20 4 6 ⟨0, -1⟩ }

/-- Claim C6, witness: selecting only `demoPenA` (rotated 90°) gives an
ActiveRect rotated 90°; selecting both pens gives rotation 0 although both
members are rotated. -/
theorem calcActiveRect_rotation_witness :
    (calcActiveRect [demoPenA]).rotate = demoPenA.rotate ∧
    (calcActiveRect [demoPenA, demoPenB]).rotate = Angle.zero := by
  refine ⟨((calcActiveRect_rotation [demoPenA]).1 demoPenA rfl).1, ?_⟩
  exact (calcActiveRect_rotation [demoPenA, demoPenB]).2 (by simp)

/-! ## Line rect derivation and translation (Claims C9 and C3) -/

/-- The polyline of a line pen's world points: `worldFrom`, then the
committed `worldAnchors`, then `worldTo`. -/
def linePoints (pen : TopologyPen) : List Point :=
  (match pen.worldFrom with | some a => [a.pt] | none => []) ++
    pen.worldAnchors.map WPoint.pt ++
    (match pen.worldTo with | some a => [a.pt] | none => [])

/-- Modelled from the spec: a line's rect is derived from its points (§2
item 7 "recompute dependent world rects"; §3 DrawingLine) (`getLineRect`
of `../common-diagram`, missing from src): the axis-aligned bounds of the
line's world points (bezier control handles ignored). -/
def getLineRect (pen : TopologyPen) : Rect :=
  boundsRect (linePoints pen)

/-- Modelled from the spec: §3 Pen — the logical rect is "parent-relative,
normalized 0..1" (`calcRelativePoint` of `../rect`, missing from src): a
world point as fractions of the given rect (total division by a degenerate
rect's zero extent yields 0 here, where the source would store a
non-finite number). -/
def calcRelativePoint (a : Option WPoint) (r : Rect) : Option WPoint :=
  a.map (fun w => { w with x := (w.x - r.x) / r.width, y := (w.y - r.y) / r.height })

/-- `Canvas.initLineRect` (src/packages/core/src/canvas/canvas.ts
1203–1220): refreshes a line pen's logical rect and world rect from its
points, re-derives the relative `from`/`to`/`anchors`, and clears the
dirty mark (path-cache update external, dirty flag not modelled). -/
def initLineRect (pen : TopologyPen) : TopologyPen :=
  let rect := getLineRect pen
  { pen with
      x := rect.x, y := rect.y, width := rect.width, height := rect.height,
      worldRect := rect,
      fromP := calcRelativePoint pen.worldFrom rect,
      toP := calcRelativePoint pen.worldTo rect,
      anchors := pen.worldAnchors.filterMap
        (fun a => calcRelativePoint (some a) rect) }

/-- Modelled from the spec: §2 item 7 "mutate … a line's points/anchors
given accumulated pointer delta" (`translateLine` of `../pen`, missing
from src): shifts the line's logical rect, world rect, and every world
point by the delta. -/
def translateLine (pen : TopologyPen) (dx dy : ℚ) : TopologyPen :=
  { pen with
      x := pen.x + dx, y := pen.y + dy,
      worldRect := translateRect pen.worldRect dx dy,
      worldFrom := pen.worldFrom.map (fun a => a.translate dx dy),
      worldTo := pen.worldTo.map (fun a => a.translate dx dy),
      worldAnchors := pen.worldAnchors.map (fun a => a.translate dx dy) }

/-- Whether an optional terminal point is bound to another pen's anchor. -/
def hasConnect : Option WPoint → Bool
  | some w => w.connectTo.isSome
  | none => false

/-- A line pen with a connected `from` or `to` terminal
(`pen.type && (pen.from.connectTo || pen.to.connectTo)`). -/
def connectedLine (pen : TopologyPen) : Bool :=
  pen.isLine && (hasConnect pen.fromP || hasConnect pen.toP)

/-- The whole-gesture guard of `Canvas.translatePens` (src 1725–1731): a
single selected line with a connected terminal makes the call a no-op. -/
def singleConnectedLine : List TopologyPen → Bool
  | [pen] => connectedLine pen
  | _ => false

/-- The per-member body of `Canvas.translatePens` (src 1734–1749): skip
parented members and connected lines; translate lines point-wise and nodes
rect-wise (with the world rect recomputed); at gesture end (`doing`
false) re-derive the line rect. -/
def translatePenStep (dx dy : ℚ) (doing : Bool) (pen : TopologyPen) : TopologyPen :=
  if pen.parentId.isSome || connectedLine pen then pen
  else
    let pen1 := if pen.isLine then translateLine pen dx dy
      else dirtyPenRect { pen with x := pen.x + dx, y := pen.y + dy }
    if doing = false then initLineRect pen1 else pen1

/-- `Canvas.translatePens` (src/packages/core/src/canvas/canvas.ts
1724–1752): returns the translated active rect, the updated selection,
and the refreshed size control points (the path-cache updates and render
request are external effects). -/
def translatePens (activeRect : Rect) (active : List TopologyPen)
    (dx dy : ℚ) (doing : Bool) : Rect × List TopologyPen × List Point :=
  if singleConnectedLine active then (activeRect, active, getSizeCPs activeRect)
  else
    let rect := translateRect activeRect dx dy
    (rect, active.map (translatePenStep dx dy doing), getSizeCPs rect)

/-- Claim C9: during a translate gesture over a multi-member selection,
every member goes through `translatePenStep`; a line member with a
connected `from` or `to` terminal is left entirely unchanged by that step,
while an unlocked, unparented, unconnected member is translated by the
full delta (its logical position, its world rect, and — for lines — every
world point). -/
theorem translatePens_connected_fixed (activeRect : Rect)
    (active : List TopologyPen) (dx dy : ℚ) (hmulti : 2 ≤ active.length) :
    (translatePens activeRect active dx dy true).2.1 =
      active.map (translatePenStep dx dy true) ∧
    (∀ pen : TopologyPen, pen.isLine = true →
      hasConnect pen.fromP = true ∨ hasConnect pen.toP = true →
      translatePenStep dx dy true pen = pen) ∧
    (∀ pen : TopologyPen, pen.locked = .none_ → pen.parentId = none →
      connectedLine pen = false →
      (translatePenStep dx dy true pen).x = pen.x + dx ∧
      (translatePenStep dx dy true pen).y = pen.y + dy ∧
      (pen.isLine = false →
        (translatePenStep dx dy true pen).worldRect.x = pen.x + dx ∧
        (translatePenStep dx dy true pen).worldRect.y = pen.y + dy) ∧
      (pen.isLine = true →
        (translatePenStep dx dy true pen).worldRect.x = pen.worldRect.x + dx ∧
        (translatePenStep dx dy true pen).worldRect.y = pen.worldRect.y + dy ∧
        (translatePenStep dx dy true pen).worldAnchors =
          pen.worldAnchors.map (fun a => a.translate dx dy) ∧
        (translatePenStep dx dy true pen).worldFrom =
          pen.worldFrom.map (fun a => a.translate dx dy) ∧
        (translatePenStep dx dy true pen).worldTo =
          pen.worldTo.map (fun a => a.translate dx dy))) := by
  refine ⟨?_, ?_, ?_⟩
  · have hguard : singleConnectedLine active = false := by
      rcases active with _ | ⟨a, _ | ⟨b, rest⟩⟩
      · rfl
      · simp at hmulti
      · rfl
    simp [translatePens, hguard]
  · intro pen hline hconn
    have : connectedLine pen = true := by
      rcases hconn with h | h <;> simp [connectedLine, hline, h]
    simp [translatePenStep, this]
  · intro pen _hlock hparent hconn
    rcases hline : pen.isLine with _ | _
    · refine ⟨?_, ?_, fun _ => ⟨?_, ?_⟩, by simp [hline]⟩ <;>
        simp [translatePenStep, hparent, hconn, hline, dirtyPenRect, mkRect]
    · refine ⟨?_, ?_, by simp [hline], fun _ => ⟨?_, ?_, ?_, ?_, ?_⟩⟩ <;>
        simp [translatePenStep, hparent, hconn, hline, translateLine,
          translateRect]

/-- A line whose `from` terminal is bound to another pen's anchor. -/
def demoConnLine : TopologyPen :=
  { id := 3, isLine := true, x := 0, y := 0, width := 10, height := 10,
    worldRect := mkRect 0 0 10 10 Angle.zero,
    fromP := some { x := 0, y := 0, connectTo := some 9 },
    toP := some { x := 1, y := 1 },
    worldFrom := some { x := 0, y := 0, connectTo := some 9 },
    worldTo := some { x := 10, y := 10 } }

/-- An unconnected, unlocked, unparented node. -/
def demoFreeNode : TopologyPen :=
  { id := 4, isLine := false, x := 30, y := 40, width := 5, height := 5,
    worldRect := mkRect 30 40 5 5 Angle.zero }

/-- Claim C9, witness: translating the two-member selection
`[demoConnLine, demoFreeNode]` by `(3, 4)` maps each member through the
step function, leaves the connected line exactly as it was, and moves the
free node to `(33, 44)`. -/
theorem translatePens_connected_fixed_witness :
    (translatePens (mkRect 0 0 40 45 Angle.zero) [demoConnLine, demoFreeNode]
        3 4 true).2.1 = [demoConnLine, demoFreeNode].map (translatePenStep 3 4 true) ∧
    translatePenStep 3 4 true demoConnLine = demoConnLine ∧
    (translatePenStep 3 4 true demoFreeNode).x = 33 ∧
    (translatePenStep 3 4 true demoFreeNode).y = 44 := by
  have h := translatePens_connected_fixed (mkRect 0 0 40 45 Angle.zero)
    [demoConnLine, demoFreeNode] 3 4 (by simp)
  refine ⟨h.1, h.2.1 demoConnLine rfl (Or.inl rfl), ?_, ?_⟩
  · have := (h.2.2 demoFreeNode rfl rfl rfl).1
    rw [this]
    norm_num [demoFreeNode]
  · have := (h.2.2 demoFreeNode rfl rfl rfl).2.1
    rw [this]
    norm_num [demoFreeNode]

/-! ## Zoom (Claim C10) -/

/-- `Canvas.calibrateMouse` (src/packages/core/src/canvas/canvas.ts
907–912): subtract the pan offset from an element-local point. -/
def calibrateMouse (dataX dataY : ℚ) (pt : Point) : Point :=
  ⟨pt.x - dataX, pt.y - dataY⟩

/-- Scale a world point about a center by a ratio. -/
def WPoint.scaleAbout (a : WPoint) (ratio : ℚ) (ctr : Point) : WPoint :=
  { a with x := ctr.x + (a.x - ctr.x) * ratio, y := ctr.y + (a.y - ctr.y) * ratio }

/-- Modelled from the spec: zooming rescales each pen about the zoom
center by the ratio of the new to the old document scale (§1 "calibrated
world-space transform"; §6 document-level options "zoom bounds")
(`scalePen` of `../pen`, missing from src): the logical rect and the world
points are scaled about the center. -/
def scalePen (pen : TopologyPen) (ratio : ℚ) (ctr : Point) : TopologyPen :=
  { pen with
      x := ctr.x + (pen.x - ctr.x) * ratio,
      y := ctr.y + (pen.y - ctr.y) * ratio,
      width := pen.width * ratio,
      height := pen.height * ratio,
      worldFrom := pen.worldFrom.map (fun a => a.scaleAbout ratio ctr),
      worldTo := pen.worldTo.map (fun a => a.scaleAbout ratio ctr),
      worldAnchors := pen.worldAnchors.map (fun a => a.scaleAbout ratio ctr) }

/-- The document state `Canvas.scale` touches: pan offset, current scale,
cached zoom center, the zoom bounds from the options, the pen list, the
selection (as indices into the pen list) and the derived active rect. -/
structure ScaleDoc where
  dataX : ℚ
  dataY : ℚ
  scale : ℚ
  dataCenter : Point
  minScale : ℚ
  maxScale : ℚ
  pens : List TopologyPen
  active : List Nat
  activeRect : Option Rect
deriving DecidableEq, Repr

/-- `Canvas.scale` (src/packages/core/src/canvas/canvas.ts 1541–1561):
requests outside `[minScale, maxScale]` return before touching anything;
otherwise every pen is rescaled about the calibrated center, the active
rect is recomputed, the scale and center are stored and one `scale` event
(returned as the second component) is emitted. -/
def scale (d : ScaleDoc) (s : ℚ) (center : Point) : ScaleDoc × List ℚ :=
  if s < d.minScale ∨ s > d.maxScale then (d, [])
  else
    let c := calibrateMouse d.dataX d.dataY center
    let ratio := s / d.scale
    let pens := d.pens.map (fun p =>
      let p1 := dirtyPenRect (scalePen p ratio c)
      if p1.isLine then initLineRect p1 else p1)
    let activePens := d.active.filterMap (fun i => pens.get? i)
    ({ d with pens := pens, activeRect := some (calcActiveRect activePens),
              scale := s, dataCenter := c }, [s])

/-- Claim C10: a zoom request strictly below `minScale` or strictly above
`maxScale` is a complete no-op — the document state (scale, pan offset,
every pen, the active rect) is returned unchanged and no `scale` event is
emitted. -/
theorem scale_out_of_bounds_noop (d : ScaleDoc) (s : ℚ) (center : Point)
    (h : s < d.minScale ∨ s > d.maxScale) :
    scale d s center = (d, []) := by
  simp [scale, h]

/-- Claim C10, witness: with bounds `[0.3, 10]`, a request for scale
`0.1` leaves a concrete one-pen document untouched and emits nothing. -/
theorem scale_out_of_bounds_noop_witness :
    scale ⟨5, 6, 1, ⟨0, 0⟩, 3 / 10, 10, [demoFreeNode], [0],
        some (mkRect 30 40 5 5 Angle.zero)⟩ (1 / 10) ⟨7, 8⟩ =
      (⟨5, 6, 1, ⟨0, 0⟩, 3 / 10, 10, [demoFreeNode], [0],
        some (mkRect 30 40 5 5 Angle.zero)⟩, []) :=
  scale_out_of_bounds_noop _ _ _ (Or.inl (by norm_num))

/-! ## Finishing an in-progress line (Claim C3) -/

/-- What `finishDrawline` leaves behind: the pen store, the ids announced
through `addPen` events, the ids of the `EditType.Add` records pushed to
the history, and the (always cleared) in-progress line. -/
structure FinishOut where
  pens : List TopologyPen
  addPenEvents : List Nat
  histories : List Nat
  drawingLine : Option TopologyPen
deriving DecidableEq, Repr

/-- The persist tail of `Canvas.finishDrawline` (src 1242–1253): unless a
`beforeAddPen` hook rejects the pen, re-derive the line rect, push the pen
to the store, emit one `addPen` event, and push one `EditType.Add` history
record.  (`active([...])` selection bookkeeping and the final render are
separate effects.) -/
def persistLine (pens : List TopologyPen)
    (beforeAddPen : Option (TopologyPen → Bool)) (dl : TopologyPen) : FinishOut :=
  if (match beforeAddPen with | none => true | some f => f dl) then
    let dl1 := initLineRect dl
    ⟨pens ++ [dl1], [dl1.id], [dl1.id], none⟩
  else ⟨pens, [], [], none⟩

/-- `Canvas.finishDrawline` (src/packages/core/src/canvas/canvas.ts
1222–1258).  `end_` is true on the forced (right-click) path.  When not
forced and the `to` terminal is not connected, the last committed anchor
is popped into `worldTo` (dropping a self-connection), and with no
committed anchor at all the in-progress line is discarded outright;
every other path persists the line. -/
def finishDrawline (pens : List TopologyPen)
    (beforeAddPen : Option (TopologyPen → Bool))
    (drawingLine : Option TopologyPen) (end_ : Bool) : FinishOut :=
  match drawingLine with
  | none => ⟨pens, [], [], none⟩
  | some dl =>
    let rect := getLineRect dl
    let dl1 := { dl with x := rect.x, y := rect.y, width := rect.width,
                         height := rect.height, worldRect := rect }
    if end_ = false ∧ hasConnect dl1.worldTo = false then
      match dl1.worldAnchors.getLast? with
      | some lastA =>
        let lastA1 := if lastA.connectTo = some dl1.id then
            { lastA with connectTo := none } else lastA
        persistLine pens beforeAddPen
          { dl1 with worldTo := some lastA1,
                     worldAnchors := dl1.worldAnchors.dropLast }
      | none => ⟨pens, [], [], none⟩
    else persistLine pens beforeAddPen dl1

/-- A just-started drawing line: one click (`worldFrom`), a moving preview
`worldTo` with no connection, and zero committed anchors. -/
def demoDrawingLine : TopologyPen :=
  { id := 7, isLine := true, x := 0, y := 0, width := 0, height := 0,
    worldRect := mkRect 0 0 0 0 Angle.zero,
    worldFrom := some { x := 0, y := 0 },
    worldTo := some { x := 10, y := 10 },
    worldAnchors := [] }

/-- Claim C3, counterexample to the claim as stated: finishing
`demoDrawingLine` — which has zero committed anchors — through the
right-click/forced-end path (`finishDrawline(true)`) appends a pen to the
empty store and emits an `addPen` event, instead of leaving the pen list
unchanged. -/
theorem finishDrawline_forced_zero_anchors_cex :
    demoDrawingLine.worldAnchors.length = 0 ∧
    (finishDrawline [] none (some demoDrawingLine) true).pens.length = 1 ∧
    (finishDrawline [] none (some demoDrawingLine) true).addPenEvents.length = 1 := by
  refine ⟨rfl, ?_, ?_⟩ <;>
    simp [finishDrawline, persistLine, demoDrawingLine, hasConnect]

/-- Claim C3 (corrected, with no `beforeAddPen` hook installed): finishing
an in-progress line normally (not forced) with zero committed anchors and
an unconnected `to` terminal leaves the pen store unchanged, emits no
`addPen` event and pushes no history record; finishing with at least one
committed anchor — and likewise any forced (right-click) finish — appends
exactly one pen, emits exactly one `addPen` event and pushes exactly one
history record. -/
theorem finishDrawline_spec (pens : List TopologyPen) (dl : TopologyPen) :
    (dl.worldAnchors = [] → hasConnect dl.worldTo = false →
      finishDrawline pens none (some dl) false = ⟨pens, [], [], none⟩) ∧
    (∀ end_ : Bool, dl.worldAnchors ≠ [] →
      (finishDrawline pens none (some dl) end_).pens.length = pens.length + 1 ∧
      (finishDrawline pens none (some dl) end_).addPenEvents.length = 1 ∧
      (finishDrawline pens none (some dl) end_).histories.length = 1) ∧
    (∀ end_ : Bool, end_ = true ∨ hasConnect dl.worldTo = true →
      (finishDrawline pens none (some dl) end_).pens.length = pens.length + 1 ∧
      (finishDrawline pens none (some dl) end_).addPenEvents.length = 1 ∧
      (finishDrawline pens none (some dl) end_).histories.length = 1) := by
  refine ⟨fun h0 hc => ?_, fun end_ hne => ?_, fun end_ hor => ?_⟩
  · simp [finishDrawline, h0, hc]
  · rcases hend : end_ with _ | _
    · rcases hconn : hasConnect dl.worldTo with _ | _
      · obtain ⟨l, a, hla⟩ : ∃ l a, dl.worldAnchors = l ++ [a] := by
          rcases dl.worldAnchors.eq_nil_or_concat with h | ⟨l, a, h⟩
          · exact absurd h hne
          · exact ⟨l, a, by simpa [List.concat_eq_append] using h⟩
        simp [finishDrawline, hconn, hla, persistLine]
      · simp [finishDrawline, hconn, persistLine]
    · simp [finishDrawline, persistLine]
  · rcases hor with rfl | hc
    · simp [finishDrawline, persistLine]
    · rcases hend : end_ with _ | _ <;>
        simp [finishDrawline, hc, persistLine]

/-- A drawing line with one committed anchor and an unconnected preview
`to` point. -/
def demoDrawingLine2 : TopologyPen :=
  { demoDrawingLine with
    id := 8,
    worldAnchors := [{ x := 5, y := 5 }] }

/-- Claim C3, witness: finishing `demoDrawingLine` (zero committed
anchors) normally discards it without events; finishing
`demoDrawingLine2` (one committed anchor) appends exactly one pen with one
`addPen` event and one history record. -/
theorem finishDrawline_spec_witness :
    finishDrawline [] none (some demoDrawingLine) false =
      ⟨[], [], [], none⟩ ∧
    (finishDrawline [] none (some demoDrawingLine2) false).pens.length = 1 ∧
    (finishDrawline [] none (some demoDrawingLine2) false).addPenEvents.length = 1 ∧
    (finishDrawline [] none (some demoDrawingLine2) false).histories.length = 1 := by
  refine ⟨(finishDrawline_spec [] demoDrawingLine).1 rfl rfl, ?_⟩
  have h := (finishDrawline_spec [] demoDrawingLine2).2.1 false (by
    simp [demoDrawingLine2])
  simpa using h

/-! ## Hit-Test Resolver (Claim C4) -/

/-- Modelled from the spec: §2 "point-near-point (hit) tests" with the
fixed world-constant tolerance `pointSize` (§4.3 item 1) (`hitPoint` of
`../point`, missing from src): containment in the axis-aligned box of
half-width `size` around the target. -/
def hitPoint (pt target : Point) (size : ℚ) : Bool :=
  decide (|pt.x - target.x| ≤ size) && decide (|pt.y - target.y| ≤ size)

/-- Modelled from the spec: §2 "point-in-rect" tests and §4.3 item 5 — a
node body uses "simple rect containment against its world rect
(rotation-adjusted)" (`pointInRect` of `../rect`, missing from src): a
rotated rect un-rotates the point about the center first. -/
def pointInRect (pt : Point) (r : Rect) : Bool :=
  let p := if r.rotate = Angle.zero then pt
    else rotatePoint pt (Angle.neg r.rotate) r.center
  decide (r.x ≤ p.x) && decide (p.x ≤ r.ex) &&
    decide (r.y ≤ p.y) && decide (p.y ≤ r.ey)

/-- The point of a segment `a`–`b` closest to `pt` (the clamped projection,
exact over ℚ; a degenerate segment yields `a`). -/
def closestOnSeg (pt a b : Point) : Point :=
  let dx := b.x - a.x
  let dy := b.y - a.y
  let len2 := dx ^ 2 + dy ^ 2
  if len2 = 0 then a
  else
    let t := max 0 (min 1 (((pt.x - a.x) * dx + (pt.y - a.y) * dy) / len2))
    ⟨a.x + t * dx, a.y + t * dy⟩

/-- Scan the consecutive segments of a polyline for the first within
tolerance of `pt`, returning the nearest point on that segment and the
segment index. -/
def segScan (pt : Point) (tol : ℚ) : List Point → Nat → Option (Point × Nat)
  | a :: b :: rest, i =>
    let c := closestOnSeg pt a b
    if sqDist pt c ≤ tol ^ 2 then some (c, i)
    else segScan pt tol (b :: rest) (i + 1)
  | _, _ => none

/-- Modelled from the spec: §4.3 item 5 — "a line pen uses a
point-near-polyline/bezier test with tolerance and returns the nearest
point-on-line plus its segment index" (`pointInLine` of
`../common-diagram`, missing from src).  Segments run `worldFrom` →
committed anchors → `worldTo` and are tested as straight lines with a
fixed tolerance of 5 (bezier sampling is the external path cache's
concern). -/
def pointInLine (pt : Point) (pen : TopologyPen) : Option (Point × Nat) :=
  segScan pt 5 (linePoints pen) 0

/-- First index in `[lo, lo + count)` whose size control point is hit
(the `for` loops of src 935–950 and 953–968; a missing entry stops the
scan as the source would fault on it). -/
def scanCPs (pt : Point) (size : ℚ) (cps : List Point) :
    Nat → Nat → Option Nat
  | _, 0 => none
  | lo, Nat.succ n =>
    match cps.get? lo with
    | some p => if hitPoint pt p size then some lo
      else scanCPs pt size cps (lo + 1) n
    | none => none

/-- The rotate-handle position: 30 world units above the active rect's
top edge center, rotated with the rect when the rect is rotated
(src 922–925). -/
def rotateCP (r : Rect) : Point :=
  let p : Point := ⟨r.center.x, r.y - 30⟩
  if r.rotate = Angle.zero then p else rotatePoint p r.rotate r.center

/-- The inputs of one `getHover` call: the canvas and store fields it
reads.  `hover` is the previous call's hovered-pen index (`store.hover`),
`resizeIndex` the canvas's current value (both survive when untouched);
pens are listed in z-order, topmost last. -/
structure HoverEnv where
  drawingLineName : Bool
  activeRect : Option Rect
  sizeCPs : List Point
  active : List TopologyPen
  dataLocked : Bool
  disableRotate : Bool
  disableAnchor : Bool
  hotkeyType : HotkeyType
  pointSize : ℚ
  resizeIndex : Nat
  hover : Option Nat
  pens : List TopologyPen
deriving DecidableEq, Repr

/-- The rotate/resize handle scan of `Canvas.getHover` (src 920–970):
rotate handle first (rotation enabled, no hotkey gate), then the 4 corner
control points (no gate or the Resize gate), then the 4 edge-midpoint
control points (Resize gate only); a later match overwrites an earlier
one, exactly as the source's sequential assignments do.  Cursor-glyph
selection is an external effect and is omitted. -/
def handleHover (disableRotate : Bool) (hotkeyType : HotkeyType)
    (sizeCPs : List Point) (pointSize : ℚ) (resizeIndex : Nat)
    (pt : Point) (r : Rect) : HoverType × Nat :=
  let ht1 : HoverType :=
    if disableRotate = false ∧ hotkeyType = .none_ ∧
        hitPoint pt (rotateCP r) pointSize = true then .rotate else .none_
  let corner := if hotkeyType = .none_ ∨ hotkeyType = .resize then
      scanCPs pt pointSize sizeCPs 0 4 else none
  let step2 : HoverType × Nat := match corner with
    | some i => (.resize, i)
    | none => (ht1, resizeIndex)
  let edge := if hotkeyType = .resize then
      scanCPs pt pointSize sizeCPs 4 4 else none
  match edge with
  | some i => (.resize, i)
  | none => step2

/-- `Canvas.inAnchor` (src/packages/core/src/canvas/canvas.ts 1071–1106):
the anchor point itself first (line anchors and node anchors), then — on
an active line — its `prev` and `next` bezier control handles.  The
cursor and dirty-mark side effects are omitted; the hit is returned with
the anchor instead of mutating `store.anchor`/`store.hover`. -/
def inAnchor (pt : Point) (pen : TopologyPen) (anchor : Option WPoint)
    (pointSize : ℚ) : Option (HoverType × WPoint) :=
  match anchor with
  | none => none
  | some a =>
    if hitPoint pt a.pt pointSize then
      some ((if pen.isLine then HoverType.lineAnchor else HoverType.nodeAnchor), a)
    else if pen.isLine && pen.active &&
        (match a.prev with | some pp => hitPoint pt pp pointSize | none => false) then
      some (.lineAnchorPrev, a)
    else if pen.isLine && pen.active &&
        (match a.next with | some np => hitPoint pt np pointSize | none => false) then
      some (.lineAnchorNext, a)
    else none

/-- The anchor stage of the pen loop (src 979–999): the `worldFrom`
terminal, then `worldTo`, then the committed world anchors. -/
def anchorsHover (pt : Point) (pen : TopologyPen) (size : ℚ) :
    Option (HoverType × WPoint) :=
  match inAnchor pt pen pen.worldFrom size with
  | some res => some res
  | none =>
    match inAnchor pt pen pen.worldTo size with
    | some res => some res
    | none => pen.worldAnchors.findSome? (fun a => inAnchor pt pen (some a) size)

/-- The body stage of the pen loop (src 1001–1038): a line uses the
point-near-polyline test (recording the nearest point and segment index),
a node uses rotated rect containment (recording the pointer as
`pointAt`). -/
def penBodyHover (pt : Point) (pen : TopologyPen) :
    Option (HoverType × Option Point × Option Nat) :=
  if pen.isLine then
    match pointInLine pt pen with
    | some pos => some (.line, some pos.1, some pos.2)
    | none => none
  else
    if pointInRect pt pen.worldRect then some (.node, some pt, none)
    else none

/-- The hover-state produced by the pen loop. -/
structure PenHit where
  hoverType : HoverType
  hover : Option Nat
  anchor : Option WPoint
  pointAt : Option Point
  pointAtIndex : Option Nat
deriving DecidableEq, Repr

/-- The back-to-front pen iteration of `Canvas.getHover` (src 971–1040):
skip invisible or fully disabled pens; test anchors (document unlocked,
anchors enabled, gate not Resize) before the pen body; on a miss leave
the previous hover untouched (the final clearing happens outside the
loop). -/
def penLoop (env : HoverEnv) (pt : Point) :
    List (Nat × TopologyPen) → PenHit
  | [] => ⟨.none_, env.hover, none, none, none⟩
  | (i, pen) :: rest =>
    if pen.visible = false ∨ pen.locked = LockState.disable then
      penLoop env pt rest
    else
      let aHit := if env.dataLocked = false ∧ env.disableAnchor = false ∧
          env.hotkeyType ≠ .resize then anchorsHover pt pen env.pointSize else none
      match aHit with
      | some res => ⟨res.1, some i, some res.2, none, none⟩
      | none =>
        match penBodyHover pt pen with
        | some res => ⟨res.1, some i, none, res.2.1, res.2.2⟩
        | none => penLoop env pt rest

/-- The classification and hover state one `getHover` call resolves. -/
structure HoverResult where
  hoverType : HoverType
  resizeIndex : Nat
  hover : Option Nat
  anchor : Option WPoint
  pointAt : Option Point
  pointAtIndex : Option Nat
deriving DecidableEq, Repr

/-- `Canvas.getHover` (src/packages/core/src/canvas/canvas.ts 914–1069):
clear the anchor/point-at scratch state; when not line-drawing, a
selection rect exists, the selection is not a single line and the
document is unlocked, scan the rotate/resize handles; only when no handle
matched, walk the pens topmost-first; fall back to a Node hit anywhere
inside the active rect; on no hit at all clear the hover.  Cursor glyphs
and the exactly-once enter/leave emission on hover transitions are
external side effects and are omitted. -/
def getHover (env : HoverEnv) (pt : Point) : HoverResult :=
  let activeLine : Bool := match env.active with
    | [p] => p.isLine
    | _ => false
  let handle : HoverType × Nat :=
    match env.activeRect with
    | some r =>
      if env.drawingLineName = false ∧ activeLine = false ∧
          env.dataLocked = false then
        handleHover env.disableRotate env.hotkeyType env.sizeCPs
          env.pointSize env.resizeIndex pt r
      else (.none_, env.resizeIndex)
    | none => (.none_, env.resizeIndex)
  if handle.1 ≠ .none_ then
    ⟨handle.1, handle.2, env.hover, none, none, none⟩
  else
    let ph := penLoop env pt env.pens.enum.reverse
    if ph.hoverType = .none_ then
      if activeLine = false ∧
          (match env.activeRect with
            | some r => pointInRect pt r
            | none => false) = true then
        ⟨.node, env.resizeIndex, ph.hover, ph.anchor, ph.pointAt, ph.pointAtIndex⟩
      else
        ⟨.none_, env.resizeIndex, none, ph.anchor, ph.pointAt, ph.pointAtIndex⟩
    else
      ⟨ph.hoverType, env.resizeIndex, ph.hover, ph.anchor, ph.pointAt, ph.pointAtIndex⟩

/-- Claim C4: when the pointer hits an eligible rotate/resize handle of
the current selection (the handle scan classifies it Rotate or Resize),
`getHover` reports exactly that handle classification — even when a pen
body covers the same point — and the per-pen anchor/body stages are never
consulted: the result does not depend on the pen list at all, and no
anchor or point-at state is produced. -/
theorem getHover_handle_priority (env : HoverEnv) (pt : Point) (r : Rect)
    (hr : env.activeRect = some r)
    (hd : env.drawingLineName = false)
    (hal : (match env.active with | [p] => p.isLine | _ => false) = false)
    (hlock : env.dataLocked = false)
    (hhit : (handleHover env.disableRotate env.hotkeyType env.sizeCPs
        env.pointSize env.resizeIndex pt r).1 = .rotate ∨
      (handleHover env.disableRotate env.hotkeyType env.sizeCPs
        env.pointSize env.resizeIndex pt r).1 = .resize)
    (_hbody : ∃ pen ∈ env.pens, pen.isLine = false ∧
      pointInRect pt pen.worldRect = true) :
    (getHover env pt).hoverType = (handleHover env.disableRotate
      env.hotkeyType env.sizeCPs env.pointSize env.resizeIndex pt r).1 ∧
    ((getHover env pt).hoverType = .rotate ∨ (getHover env pt).hoverType = .resize) ∧
    (getHover env pt).anchor = none ∧
    (getHover env pt).pointAt = none ∧
    getHover env pt = getHover { env with pens := [] } pt := by
  have hne : (handleHover env.disableRotate env.hotkeyType env.sizeCPs
      env.pointSize env.resizeIndex pt r).1 ≠ .none_ := by
    rcases hhit with h | h <;> simp [h]
  have hstep : ∀ pens2 : List TopologyPen,
      getHover { env with pens := pens2 } pt =
        ⟨(handleHover env.disableRotate env.hotkeyType env.sizeCPs
            env.pointSize env.resizeIndex pt r).1,
          (handleHover env.disableRotate env.hotkeyType env.sizeCPs
            env.pointSize env.resizeIndex pt r).2,
          env.hover, none, none, none⟩ := by
    intro pens2
    unfold getHover
    dsimp only
    rw [hr]
    simp only [hd, hal, hlock]
    simp [hne]
  have henv : getHover env pt =
      ⟨(handleHover env.disableRotate env.hotkeyType env.sizeCPs
          env.pointSize env.resizeIndex pt r).1,
        (handleHover env.disableRotate env.hotkeyType env.sizeCPs
          env.pointSize env.resizeIndex pt r).2,
        env.hover, none, none, none⟩ := by
    have h := hstep env.pens
    simpa using h
  refine ⟨by rw [henv], by rw [henv]; exact hhit, by rw [henv],
    by rw [henv], ?_⟩
  rw [henv, hstep []]

/-- A node whose body covers the origin (where a corner resize handle of
the demonstration selection also sits). -/
def demoHitNode : TopologyPen :=
  { id := 11, isLine := false, x := -10, y := -10, width := 60, height := 60,
    worldRect := mkRect (-10) (-10) 60 60 Angle.zero }

/-- The demonstration resolver environment: a 100×100 unrotated selection
rect at the origin with its derived size control points, no gates, no
locks, and `demoHitNode` as the only pen. -/
def demoHoverEnv : HoverEnv :=
  { drawingLineName := false,
    activeRect := some (mkRect 0 0 100 100 Angle.zero),
    sizeCPs := getSizeCPs (mkRect 0 0 100 100 Angle.zero),
    active := [demoHitNode],
    dataLocked := false,
    disableRotate := false,
    disableAnchor := false,
    hotkeyType := .none_,
    pointSize := 8,
    resizeIndex := 0,
    hover := none,
    pens := [demoHitNode] }

/-- Claim C4, witness: at the origin — simultaneously the selection's
corner-0 resize handle and a point inside `demoHitNode`'s body — the
resolver reports Resize, not Node, with no anchor or point-at state. -/
theorem getHover_handle_priority_witness :
    (getHover demoHoverEnv ⟨0, 0⟩).hoverType = HoverType.resize ∧
    (getHover demoHoverEnv ⟨0, 0⟩).anchor = none := by
  have hhit : (handleHover demoHoverEnv.disableRotate demoHoverEnv.hotkeyType
      demoHoverEnv.sizeCPs demoHoverEnv.pointSize demoHoverEnv.resizeIndex
      ⟨0, 0⟩ (mkRect 0 0 100 100 Angle.zero)).1 = .resize := by
    norm_num [handleHover, scanCPs, hitPoint, rotateCP, demoHoverEnv,
      getSizeCPs, rectToPoints, rotatePoint, mkRect, Angle.zero]
  have h := getHover_handle_priority demoHoverEnv ⟨0, 0⟩
    (mkRect 0 0 100 100 Angle.zero) rfl rfl rfl rfl (Or.inr hhit)
    ⟨demoHitNode, by simp [demoHoverEnv], rfl, by
      norm_num [pointInRect, demoHitNode, mkRect, Angle.zero]⟩
  exact ⟨by rw [h.1, hhit], h.2.2.1⟩

end Topology
